import Mathlib

/-!
Verification of the parallel block transaction executor.

The Go sources are shallowly embedded: transaction hashes and account
addresses are `Nat`, 64-bit unsigned arithmetic is `Nat` with explicit
`% 2^64` (or guarded subtraction) where Go wraps, `panic` is modelled by
`Option`/`none`, and Go errors by explicit error inductives.  Mutex
waiting is not modelled (acquiring a gate does not change the queue
data); the data manipulated under the lock is.
-/

/-- Transaction hash (`common.Hash`), abstracted to `Nat`. -/
abbrev Hash := Nat

/-- Account address (`common.Address`), abstracted to `Nat`. -/
abbrev Address := Nat

/-- 2^64, the modulus of Go `uint64` arithmetic. -/
def uint64Mod : Nat := 2 ^ 64

/-- `math.MaxUint64`. -/
def maxUint64 : Nat := 2 ^ 64 - 1

/-! ## FIFO resource lock (`FIFOLocker`)

Two variants of `FIFOLocker` appear in the repository (one per file);
both hold a current `headTx`, a queue `txQueue` of reserved hashes and a
per-hash gate table `txLocks`.  A gate is a mutex created in the locked
(closed) state; we record for each registered hash whether its gate has
been opened (`true`) or is still closed (`false`). -/

structure FIFOLocker where
  headTx : Hash
  txQueue : List Hash
  txLocks : Hash → Option Bool

/-- Map assignment `f.txLocks[h] = gate` on the gate table. -/
def setGate (m : Hash → Option Bool) (h : Hash) (b : Bool) : Hash → Option Bool :=
  fun h2 => if h2 = h then some b else m h2

/-- `NewFIFOLocker(head)`: head, empty queue, empty gate table. -/
def NewFIFOLocker (head : Hash) : FIFOLocker :=
  { headTx := head, txQueue := [], txLocks := fun _ => none }

namespace FifoA
/-! Variant A of `FIFOLocker` (the file whose `Unlock` advances with
`txQueue[1:]` and whose `Reserve` guards against the head). -/

/-- `Reserve(txHash)`: panics (`none`) when `txHash` is the current head;
otherwise appends `txHash` to the queue and installs a closed gate. -/
def reserve (f : FIFOLocker) (txHash : Hash) : Option FIFOLocker :=
  if txHash = f.headTx then
    none
  else
    some { f with
      txQueue := f.txQueue ++ [txHash]
      txLocks := setGate f.txLocks txHash false }

/-- `Lock(txHash)`: the head proceeds immediately; a reserved hash waits
on its gate (waiting does not change the lock data); an unregistered
hash panics (`none`). -/
def lock (f : FIFOLocker) (txHash : Hash) : Option FIFOLocker :=
  if f.headTx = txHash then
    some f
  else
    match f.txLocks txHash with
    | none => none
    | some _ => some f

/-- `Unlock(txHash)`: panics (`none`) unless `txHash` is the head; with
an empty queue does nothing further; otherwise pops the queue front into
the head (`txQueue[1:]`) and opens the new head's gate. -/
def unlock (f : FIFOLocker) (txHash : Hash) : Option FIFOLocker :=
  if f.headTx ≠ txHash then
    none
  else
    match f.txQueue with
    | [] => some f
    | next :: rest =>
      match f.txLocks next with
      | none => none
      | some _ =>
          some { headTx := next, txQueue := rest,
                 txLocks := setGate f.txLocks next true }

end FifoA

namespace FifoB
/-! Variant B of `FIFOLocker` (the file whose `Unlock` advances with
`txQueue[0:]` and whose `Reserve` performs no head check). -/

/-- `Reserve(txHash)`: unconditionally appends `txHash` to the queue and
installs a closed gate; there is no head check. -/
def reserve (f : FIFOLocker) (txHash : Hash) : FIFOLocker :=
  { f with
    txQueue := f.txQueue ++ [txHash]
    txLocks := setGate f.txLocks txHash false }

/-- `Unlock(txHash)`: panics (`none`) unless `txHash` is the head; with
an empty queue does nothing further; otherwise sets the head to the
queue front but advances the queue with `txQueue[0:]` (the identity
slice), and opens the new head's gate. -/
def unlock (f : FIFOLocker) (txHash : Hash) : Option FIFOLocker :=
  if f.headTx ≠ txHash then
    none
  else
    match f.txQueue with
    | [] => some f
    | next :: _rest =>
      match f.txLocks next with
      | none => none
      | some _ =>
          some { headTx := next, txQueue := f.txQueue,
                 txLocks := setGate f.txLocks next true }

end FifoB

/-! ## Gas pool (`core/gaspool.go`) -/

/-- `ErrGasLimitReached`, the error returned by `SubGas` on exhaustion. -/
inductive GasPoolError where
  | errGasLimitReached
deriving DecidableEq, Repr

/-- `GasPool.AddGas(amount)`: panics (`none`) when `gas` would exceed
`math.MaxUint64`; otherwise adds `amount` to the pool. -/
def addGas (gas amount : Nat) : Option Nat :=
  if maxUint64 - amount < gas then none else some (gas + amount)

/-- `GasPool.SubGas(amount)`: returns the (possibly unchanged) pool value
together with `ErrGasLimitReached` when the pool holds less than
`amount`; otherwise deducts `amount` with no error. -/
def subGas (gas amount : Nat) : Nat × Option GasPoolError :=
  if gas < amount then
    (gas, some .errGasLimitReached)
  else
    (gas - amount, none)

/-! ## Claims C1, C4, C5, C9 -/

/-- C1: in the variant that advances with `txQueue[1:]`, `Unlock(h)`
panics when `h` is not the head, leaves the lock unchanged when the
queue is empty, and otherwise pops the queue front into the head,
removes it from the queue and opens the new head's gate.  In the other
variant the advance is written `txQueue[0:]`: at the concrete lock with
head `0`, queue `[1]` and a closed gate for `1`, its `Unlock 0` makes
`1` the head and opens its gate but leaves `1` in the queue instead of
draining it, contradicting the claimed pop-front semantics. -/
theorem fifo_unlock_pop_front_code_bug :
    (∀ (f : FIFOLocker) (h : Hash), f.headTx ≠ h → FifoA.unlock f h = none) ∧
    (∀ (f : FIFOLocker) (h : Hash), f.headTx = h → f.txQueue = [] →
      FifoA.unlock f h = some f) ∧
    (∀ (f : FIFOLocker) (h : Hash) (next : Hash) (rest : List Hash) (b : Bool),
      f.headTx = h → f.txQueue = next :: rest → f.txLocks next = some b →
      FifoA.unlock f h =
        some { headTx := next, txQueue := rest,
               txLocks := setGate f.txLocks next true }) ∧
    (FifoB.unlock
        { headTx := 0, txQueue := [1], txLocks := setGate (fun _ => none) 1 false } 0 =
      some { headTx := 1, txQueue := [1],
             txLocks := setGate (setGate (fun _ => none) 1 false) 1 true }) := by
  refine ⟨?_, ?_, ?_, ?_⟩
  · intro f h hne
    simp [FifoA.unlock, hne]
  · intro f h he hq
    simp [FifoA.unlock, he, hq]
  · intro f h next rest b he hq hg
    simp [FifoA.unlock, he, hq, hg]
  · rfl

/-- Witness for C1: each hypothetical branch discharged at a concrete lock. -/
theorem fifo_unlock_pop_front_code_bug_witness :
    (FifoA.unlock { headTx := 2, txQueue := [], txLocks := fun _ => none } 3 = none) ∧
    (FifoA.unlock { headTx := 2, txQueue := [], txLocks := fun _ => none } 2 =
      some { headTx := 2, txQueue := [], txLocks := fun _ => none }) ∧
    (FifoA.unlock
        { headTx := 0, txQueue := [1], txLocks := setGate (fun _ => none) 1 false } 0 =
      some { headTx := 1, txQueue := [],
             txLocks := setGate (setGate (fun _ => none) 1 false) 1 true }) := by
  refine ⟨?_, ?_, ?_⟩
  · exact fifo_unlock_pop_front_code_bug.1 _ 3 (by decide)
  · exact fifo_unlock_pop_front_code_bug.2.1 _ 2 rfl rfl
  · exact fifo_unlock_pop_front_code_bug.2.2.1 _ 0 1 [] false rfl rfl rfl

/-- C4: `SubGas(n)` on pool value `g` errors with `ErrGasLimitReached`
exactly when `g < n`, in which case the pool is unchanged; otherwise it
returns no error and the pool becomes `g - n` (true subtraction: the new
value plus `n` restores `g`, so the counter never goes negative). -/
theorem gasPool_subGas_spec (g n : Nat) :
    ((subGas g n).2 = some .errGasLimitReached ↔ g < n) ∧
    (g < n → (subGas g n).1 = g) ∧
    (n ≤ g → (subGas g n).2 = none ∧ (subGas g n).1 = g - n ∧
      (subGas g n).1 + n = g) ∧
    (subGas g n).1 ≤ g := by
  unfold subGas
  by_cases h : g < n <;> simp [h] <;> omega

/-- Witness for C4: the error branch at `(1, 2)` and the success branch
at `(7, 3)`. -/
theorem gasPool_subGas_spec_witness :
    (subGas 1 2).1 = 1 ∧ (subGas 7 3).2 = none ∧ (subGas 7 3).1 = 4 := by
  refine ⟨(gasPool_subGas_spec 1 2).2.1 (by decide), ?_, ?_⟩
  · exact ((gasPool_subGas_spec 7 3).2.2.1 (by decide)).1
  · exact ((gasPool_subGas_spec 7 3).2.2.1 (by decide)).2.1

/-- C5 counterexample: in the variant without the head check, `Reserve`
called with the current head hash does not panic — it is a total
function that simply appends the head to the queue and installs a closed
gate for it, so the claimed fail-fast behaviour does not hold for every
FIFO lock variant. -/
theorem fifo_reserve_head_counterexample :
    FifoB.reserve (NewFIFOLocker 5) 5 =
      { headTx := 5, txQueue := [5],
        txLocks := setGate (fun _ => none) 5 false } := by
  rfl

/-- C5 amended: in the variant with the head guard, `Reserve(h)` panics
exactly when `h` equals the current head, and otherwise appends `h` to
the queue and creates a closed gate for `h`; in the variant without the
guard, `Reserve(h)` always appends `h` and creates a closed gate, even
when `h` is the head. -/
theorem fifo_reserve_spec_amended :
    (∀ (f : FIFOLocker) (h : Hash), h = f.headTx → FifoA.reserve f h = none) ∧
    (∀ (f : FIFOLocker) (h : Hash), h ≠ f.headTx →
      FifoA.reserve f h =
        some { f with txQueue := f.txQueue ++ [h],
                      txLocks := setGate f.txLocks h false }) ∧
    (∀ (f : FIFOLocker) (h : Hash),
      FifoB.reserve f h =
        { f with txQueue := f.txQueue ++ [h],
                 txLocks := setGate f.txLocks h false }) := by
  refine ⟨?_, ?_, fun f h => rfl⟩
  · intro f h he
    simp [FifoA.reserve, he]
  · intro f h hne
    simp [FifoA.reserve, hne]

/-- Witness for C5: both branches of the guarded variant at concrete
locks. -/
theorem fifo_reserve_spec_amended_witness :
    FifoA.reserve (NewFIFOLocker 4) 4 = none ∧
    FifoA.reserve (NewFIFOLocker 4) 9 =
      some { headTx := 4, txQueue := [9],
             txLocks := setGate (fun _ => none) 9 false } := by
  refine ⟨fifo_reserve_spec_amended.1 _ 4 rfl, ?_⟩
  exact fifo_reserve_spec_amended.2.1 (NewFIFOLocker 4) 9 (by decide)

/-- C9: `AddGas(n)` on pool value `g` (both `uint64` values) panics
exactly when `g + n` overflows 64 bits, i.e. when `g` exceeds
`MaxUint64 - n`; otherwise the pool becomes `g + n`. -/
theorem gasPool_addGas_overflow_spec (g n : Nat)
    (hg : g < uint64Mod) (hn : n < uint64Mod) :
    (addGas g n = none ↔ uint64Mod ≤ g + n) ∧
    (g + n < uint64Mod → addGas g n = some (g + n)) := by
  unfold addGas maxUint64
  unfold uint64Mod at hg hn ⊢
  by_cases h : 2 ^ 64 - 1 - n < g <;> simp [h] <;> omega

/-- Witness for C9: overflow at `(2^64 - 1, 1)` and success at `(3, 4)`. -/
theorem gasPool_addGas_overflow_spec_witness :
    addGas (2 ^ 64 - 1) 1 = none ∧ addGas 3 4 = some 7 := by
  constructor
  · exact (gasPool_addGas_overflow_spec (2 ^ 64 - 1) 1 (by decide) (by decide)).1.mpr
      (by decide)
  · exact (gasPool_addGas_overflow_spec 3 4 (by decide) (by decide)).2 (by decide)

/-! ## Bounded task group (the functionally complete variant of
`BoundedGroup`, with `taskWG`, `errOnce`, `err` and optional `cancel`)

The error bookkeeping is sequentialised over an arbitrary completion
order of the submitted tasks: `installErr` is the worker-loop body
(`errOnce.Do` installs the first non-nil error and fires `cancel` when
one was supplied), and `BoundedGroup.wait` reads the slot after all
tasks ran, firing `cancel` as well. -/

structure BoundedGroup (E : Type) where
  hasCancel : Bool
  cancelCalled : Bool
  err : Option E

/-- `NewBoundedErrGroup`: no cancellation handle. -/
def NewBoundedErrGroup (E : Type) : BoundedGroup E :=
  { hasCancel := false, cancelCalled := false, err := none }

/-- `NewBoundedErrGroupWithContext`: same, with a cancellation handle
derived from the parent context. -/
def NewBoundedErrGroupWithContext (E : Type) : BoundedGroup E :=
  { NewBoundedErrGroup E with hasCancel := true }

/-- Worker-loop body for one completed task result: a non-nil error is
installed through `errOnce.Do` (only the first installation has effect),
which also fires `cancel` when the group has one. -/
def installErr {E : Type} (g : BoundedGroup E) (r : Option E) : BoundedGroup E :=
  match r with
  | none => g
  | some e =>
    match g.err with
    | some _ => g
    | none =>
        { g with err := some e, cancelCalled := g.cancelCalled || g.hasCancel }

/-- The workers run all submitted tasks; `rs` is the sequence of task
results in completion order. -/
def runTasks {E : Type} (g : BoundedGroup E) (rs : List (Option E)) : BoundedGroup E :=
  rs.foldl installErr g

/-- `Wait`: after all tasks have run and the workers are joined, fires
`cancel` when one was supplied and returns the installed error. -/
def BoundedGroup.wait {E : Type} (g : BoundedGroup E) : Option E × BoundedGroup E :=
  (g.err, if g.hasCancel then { g with cancelCalled := true } else g)

theorem runTasks_err_some {E : Type} (rs : List (Option E)) (g : BoundedGroup E)
    (e : E) (h : g.err = some e) : (runTasks g rs).err = some e := by
  induction rs generalizing g with
  | nil => exact h
  | cons r rs ih =>
    cases r with
    | none => exact ih g h
    | some e2 =>
      show (runTasks (installErr g (some e2)) rs).err = some e
      unfold installErr
      rw [h]
      exact ih g h

theorem runTasks_err_first {E : Type} (rs : List (Option E)) (g : BoundedGroup E)
    (h : g.err = none) : (runTasks g rs).err = (rs.filterMap id).head? := by
  induction rs generalizing g with
  | nil => exact h
  | cons r rs ih =>
    cases r with
    | none => exact ih g h
    | some e =>
      show (runTasks (installErr g (some e)) rs).err = _
      unfold installErr
      rw [h]
      simp only [List.filterMap_cons, id]
      exact runTasks_err_some rs _ e rfl

/-- C6: starting from a freshly constructed group (error slot empty), for
any completion order `rs` of the submitted tasks' results, only non-nil
results install into the error slot and only the first installation has
effect, so `Wait` returns the first non-nil error of `rs` — `nil` when
every task returned `nil` — and fires the cancellation handle when the
group was built with one. -/
theorem boundedGroup_wait_first_error {E : Type} (g : BoundedGroup E)
    (rs : List (Option E)) (hinit : g.err = none) :
    ((runTasks g rs).wait.1 = (rs.filterMap id).head?) ∧
    ((∀ r ∈ rs, r = none) → (runTasks g rs).wait.1 = none) ∧
    (g.hasCancel = true → (runTasks g rs).wait.2.cancelCalled = true) := by
  have hw : ∀ g2 : BoundedGroup E, g2.wait.1 = g2.err := by
    intro g2
    rfl
  have hcan : ∀ (rs2 : List (Option E)) (g2 : BoundedGroup E),
      (runTasks g2 rs2).hasCancel = g2.hasCancel := by
    intro rs2
    induction rs2 with
    | nil => intro g2; rfl
    | cons r rs2 ih =>
      intro g2
      show (runTasks (installErr g2 r) rs2).hasCancel = _
      rw [ih]
      cases r with
      | none => rfl
      | some e =>
        unfold installErr
        cases g2.err <;> rfl
  refine ⟨?_, ?_, ?_⟩
  · rw [hw, runTasks_err_first rs g hinit]
  · intro hall
    rw [hw, runTasks_err_first rs g hinit]
    have : rs.filterMap id = [] := by
      rw [List.filterMap_eq_nil_iff]
      exact hall
    rw [this]
    rfl
  · intro hc
    have h2 := hcan rs g
    rw [hc] at h2
    simp [BoundedGroup.wait, h2]

/-- Witness for C6: a group with a cancellation handle and completion
order `[nil, error 5, error 7]` waits to exactly the first error `5` and
fires cancellation. -/
theorem boundedGroup_wait_first_error_witness :
    (runTasks (NewBoundedErrGroupWithContext Nat) [none, some 5, some 7]).wait.1 = some 5 ∧
    (runTasks (NewBoundedErrGroupWithContext Nat) [none, some 5, some 7]).wait.2.cancelCalled = true := by
  have h := boundedGroup_wait_first_error (NewBoundedErrGroupWithContext Nat)
    [none, some 5, some 7] rfl
  refine ⟨?_, h.2.2 rfl⟩
  rw [h.1]
  rfl

/-! ## Transaction-scoped state view (`core/state/statedb_tx_specific.go`)

`txStateContext` carries the per-transaction bookkeeping; the shared
`StateDB` holds the active-context slot (`txStateContext` pointer) and,
for this embedding, a log of the base-store calls it served together
with the active context each call observed.  Every view method is
transcribed separately; its mutex/installation/delegation behaviour is
reflected as an event trace. -/

structure TxStateContext where
  journal : List Nat
  accessList : List (Address × Hash)
  thash : Hash
  txIndex : Nat
  refund : Nat
deriving DecidableEq, Repr

/-- Operations of the shared state store, one per covered view method
(the "operation of the same intent").  `big.Int` amounts are `Int`,
byte slices are `List Nat`, logs are abstract `Nat`. -/
inductive SOp where
  | createAccount (addr : Address)
  | subBalance (addr : Address) (amount : Int)
  | addBalance (addr : Address) (amount : Int)
  | getBalance (addr : Address)
  | getNonce (addr : Address)
  | setNonce (addr : Address) (nonce : Nat)
  | getCodeHash (addr : Address)
  | getCode (addr : Address)
  | setCode (addr : Address) (code : List Nat)
  | getCodeSize (addr : Address)
  | addRefund (amount : Nat)
  | subRefund (amount : Nat)
  | getRefund
  | getCommittedState (addr : Address) (key : Hash)
  | getState (addr : Address) (key : Hash)
  | setState (addr : Address) (key : Hash) (value : Hash)
  | suicide (addr : Address)
  | hasSuicided (addr : Address)
  | exist (addr : Address)
  | empty (addr : Address)
  | prepareAccessList (sender : Address) (dest : Option Address)
      (precompiles : List Address) (txAccesses : List (Address × List Hash))
  | addressInAccessList (addr : Address)
  | slotInAccessList (addr : Address) (slot : Hash)
  | addAddressToAccessList (addr : Address)
  | addSlotToAccessList (addr : Address) (slot : Hash)
  | revertToSnapshot (snapshot : Int)
  | snapshot
  | addLog (entry : Nat)
  | addPreimage (hash : Hash) (preimage : List Nat)
  | forEachStorage (addr : Address) (f : Hash → Hash → Bool)

/-- The shared state store: its active-context slot plus the log of
base-store calls served, each tagged with the context it observed. -/
structure StateDB where
  txStateContext : Option TxStateContext
  callLog : List (Option TxStateContext × SOp)

/-- A base-store call: served under whatever context is currently
installed in the active-context slot. -/
def StateDB.serve (db : StateDB) (op : SOp) : StateDB :=
  { db with callLog := db.callLog ++ [(db.txStateContext, op)] }

/-- Events of one view call, in order: mutex acquisition, the context
installation, the delegated base-store call, mutex release. -/
inductive MEvent where
  | lockAcquire
  | setContext (ctx : TxStateContext)
  | delegate (op : SOp)
  | lockRelease

/-- The transaction-scoped view: it owns its transaction context. -/
structure TxSpecificStateDB where
  txContext : TxStateContext

/-- `NewTxSpecificStateDB`: a view over the shared store with a fresh
context — fresh journal, fresh access list, the transaction hash and
index. -/
def NewTxSpecificStateDB (txHash : Hash) (txIndex : Nat) : TxSpecificStateDB :=
  { txContext :=
      { journal := [], accessList := [], thash := txHash,
        txIndex := txIndex, refund := 0 } }

/-- `CreateAccount`: lock M, install this view's context, delegate. -/
def TxSpecificStateDB.createAccount (txDB : TxSpecificStateDB) (db : StateDB)
    (addr : Address) : List MEvent × StateDB :=
  ([.lockAcquire, .setContext txDB.txContext, .delegate (.createAccount addr), .lockRelease],
   StateDB.serve { db with txStateContext := some txDB.txContext } (.createAccount addr))

/-- `SubBalance`: lock M, install this view's context, delegate. -/
def TxSpecificStateDB.subBalance (txDB : TxSpecificStateDB) (db : StateDB)
    (addr : Address) (amount : Int) : List MEvent × StateDB :=
  ([.lockAcquire, .setContext txDB.txContext, .delegate (.subBalance addr amount), .lockRelease],
   StateDB.serve { db with txStateContext := some txDB.txContext } (.subBalance addr amount))

/-- `AddBalance`: lock M, install this view's context, delegate. -/
def TxSpecificStateDB.addBalance (txDB : TxSpecificStateDB) (db : StateDB)
    (addr : Address) (amount : Int) : List MEvent × StateDB :=
  ([.lockAcquire, .setContext txDB.txContext, .delegate (.addBalance addr amount), .lockRelease],
   StateDB.serve { db with txStateContext := some txDB.txContext } (.addBalance addr amount))

/-- `GetBalance`: lock M, install this view's context, delegate. -/
def TxSpecificStateDB.getBalance (txDB : TxSpecificStateDB) (db : StateDB)
    (addr : Address) : List MEvent × StateDB :=
  ([.lockAcquire, .setContext txDB.txContext, .delegate (.getBalance addr), .lockRelease],
   StateDB.serve { db with txStateContext := some txDB.txContext } (.getBalance addr))

/-- `GetNonce`: lock M, install this view's context, delegate. -/
def TxSpecificStateDB.getNonce (txDB : TxSpecificStateDB) (db : StateDB)
    (addr : Address) : List MEvent × StateDB :=
  ([.lockAcquire, .setContext txDB.txContext, .delegate (.getNonce addr), .lockRelease],
   StateDB.serve { db with txStateContext := some txDB.txContext } (.getNonce addr))

/-- `SetNonce`: lock M, install this view's context, delegate. -/
def TxSpecificStateDB.setNonce (txDB : TxSpecificStateDB) (db : StateDB)
    (addr : Address) (nonce : Nat) : List MEvent × StateDB :=
  ([.lockAcquire, .setContext txDB.txContext, .delegate (.setNonce addr nonce), .lockRelease],
   StateDB.serve { db with txStateContext := some txDB.txContext } (.setNonce addr nonce))

/-- `GetCodeHash`: lock M, install this view's context, delegate. -/
def TxSpecificStateDB.getCodeHash (txDB : TxSpecificStateDB) (db : StateDB)
    (addr : Address) : List MEvent × StateDB :=
  ([.lockAcquire, .setContext txDB.txContext, .delegate (.getCodeHash addr), .lockRelease],
   StateDB.serve { db with txStateContext := some txDB.txContext } (.getCodeHash addr))

/-- `GetCode`: lock M, install this view's context, delegate. -/
def TxSpecificStateDB.getCode (txDB : TxSpecificStateDB) (db : StateDB)
    (addr : Address) : List MEvent × StateDB :=
  ([.lockAcquire, .setContext txDB.txContext, .delegate (.getCode addr), .lockRelease],
   StateDB.serve { db with txStateContext := some txDB.txContext } (.getCode addr))

/-- `SetCode`: lock M, install this view's context, delegate. -/
def TxSpecificStateDB.setCode (txDB : TxSpecificStateDB) (db : StateDB)
    (addr : Address) (code : List Nat) : List MEvent × StateDB :=
  ([.lockAcquire, .setContext txDB.txContext, .delegate (.setCode addr code), .lockRelease],
   StateDB.serve { db with txStateContext := some txDB.txContext } (.setCode addr code))

/-- `GetCodeSize`: lock M, install this view's context, delegate. -/
def TxSpecificStateDB.getCodeSize (txDB : TxSpecificStateDB) (db : StateDB)
    (addr : Address) : List MEvent × StateDB :=
  ([.lockAcquire, .setContext txDB.txContext, .delegate (.getCodeSize addr), .lockRelease],
   StateDB.serve { db with txStateContext := some txDB.txContext } (.getCodeSize addr))

/-- `AddRefund`: lock M, install this view's context, delegate. -/
def TxSpecificStateDB.addRefund (txDB : TxSpecificStateDB) (db : StateDB)
    (amount : Nat) : List MEvent × StateDB :=
  ([.lockAcquire, .setContext txDB.txContext, .delegate (.addRefund amount), .lockRelease],
   StateDB.serve { db with txStateContext := some txDB.txContext } (.addRefund amount))

/-- `SubRefund`: lock M, install this view's context, delegate. -/
def TxSpecificStateDB.subRefund (txDB : TxSpecificStateDB) (db : StateDB)
    (amount : Nat) : List MEvent × StateDB :=
  ([.lockAcquire, .setContext txDB.txContext, .delegate (.subRefund amount), .lockRelease],
   StateDB.serve { db with txStateContext := some txDB.txContext } (.subRefund amount))

/-- `GetRefund`: lock M, install this view's context, delegate. -/
def TxSpecificStateDB.getRefund (txDB : TxSpecificStateDB) (db : StateDB) :
    List MEvent × StateDB :=
  ([.lockAcquire, .setContext txDB.txContext, .delegate .getRefund, .lockRelease],
   StateDB.serve { db with txStateContext := some txDB.txContext } .getRefund)

/-- `GetCommittedState`: lock M, install this view's context, delegate. -/
def TxSpecificStateDB.getCommittedState (txDB : TxSpecificStateDB) (db : StateDB)
    (addr : Address) (key : Hash) : List MEvent × StateDB :=
  ([.lockAcquire, .setContext txDB.txContext, .delegate (.getCommittedState addr key), .lockRelease],
   StateDB.serve { db with txStateContext := some txDB.txContext } (.getCommittedState addr key))

/-- `GetState`: lock M, install this view's context, delegate. -/
def TxSpecificStateDB.getState (txDB : TxSpecificStateDB) (db : StateDB)
    (addr : Address) (key : Hash) : List MEvent × StateDB :=
  ([.lockAcquire, .setContext txDB.txContext, .delegate (.getState addr key), .lockRelease],
   StateDB.serve { db with txStateContext := some txDB.txContext } (.getState addr key))

/-- `SetState`: lock M, install this view's context, delegate. -/
def TxSpecificStateDB.setState (txDB : TxSpecificStateDB) (db : StateDB)
    (addr : Address) (key value : Hash) : List MEvent × StateDB :=
  ([.lockAcquire, .setContext txDB.txContext, .delegate (.setState addr key value), .lockRelease],
   StateDB.serve { db with txStateContext := some txDB.txContext } (.setState addr key value))

/-- `Suicide`: lock M, install this view's context, delegate. -/
def TxSpecificStateDB.suicide (txDB : TxSpecificStateDB) (db : StateDB)
    (addr : Address) : List MEvent × StateDB :=
  ([.lockAcquire, .setContext txDB.txContext, .delegate (.suicide addr), .lockRelease],
   StateDB.serve { db with txStateContext := some txDB.txContext } (.suicide addr))

/-- `HasSuicided`: lock M, install this view's context, delegate. -/
def TxSpecificStateDB.hasSuicided (txDB : TxSpecificStateDB) (db : StateDB)
    (addr : Address) : List MEvent × StateDB :=
  ([.lockAcquire, .setContext txDB.txContext, .delegate (.hasSuicided addr), .lockRelease],
   StateDB.serve { db with txStateContext := some txDB.txContext } (.hasSuicided addr))

/-- `Exist`: lock M, install this view's context, delegate. -/
def TxSpecificStateDB.exist (txDB : TxSpecificStateDB) (db : StateDB)
    (addr : Address) : List MEvent × StateDB :=
  ([.lockAcquire, .setContext txDB.txContext, .delegate (.exist addr), .lockRelease],
   StateDB.serve { db with txStateContext := some txDB.txContext } (.exist addr))

/-- `Empty`: lock M, install this view's context, delegate. -/
def TxSpecificStateDB.empty (txDB : TxSpecificStateDB) (db : StateDB)
    (addr : Address) : List MEvent × StateDB :=
  ([.lockAcquire, .setContext txDB.txContext, .delegate (.empty addr), .lockRelease],
   StateDB.serve { db with txStateContext := some txDB.txContext } (.empty addr))

/-- `PrepareAccessList`: lock M, install this view's context, delegate. -/
def TxSpecificStateDB.prepareAccessList (txDB : TxSpecificStateDB) (db : StateDB)
    (sender : Address) (dest : Option Address) (precompiles : List Address)
    (txAccesses : List (Address × List Hash)) : List MEvent × StateDB :=
  ([.lockAcquire, .setContext txDB.txContext,
    .delegate (.prepareAccessList sender dest precompiles txAccesses), .lockRelease],
   StateDB.serve { db with txStateContext := some txDB.txContext }
     (.prepareAccessList sender dest precompiles txAccesses))

/-- `AddressInAccessList`: lock M, install this view's context, delegate. -/
def TxSpecificStateDB.addressInAccessList (txDB : TxSpecificStateDB) (db : StateDB)
    (addr : Address) : List MEvent × StateDB :=
  ([.lockAcquire, .setContext txDB.txContext, .delegate (.addressInAccessList addr), .lockRelease],
   StateDB.serve { db with txStateContext := some txDB.txContext } (.addressInAccessList addr))

/-- `SlotInAccessList`: lock M, install this view's context, delegate. -/
def TxSpecificStateDB.slotInAccessList (txDB : TxSpecificStateDB) (db : StateDB)
    (addr : Address) (slot : Hash) : List MEvent × StateDB :=
  ([.lockAcquire, .setContext txDB.txContext, .delegate (.slotInAccessList addr slot), .lockRelease],
   StateDB.serve { db with txStateContext := some txDB.txContext } (.slotInAccessList addr slot))

/-- `AddAddressToAccessList`: lock M, install this view's context, delegate. -/
def TxSpecificStateDB.addAddressToAccessList (txDB : TxSpecificStateDB) (db : StateDB)
    (addr : Address) : List MEvent × StateDB :=
  ([.lockAcquire, .setContext txDB.txContext, .delegate (.addAddressToAccessList addr), .lockRelease],
   StateDB.serve { db with txStateContext := some txDB.txContext } (.addAddressToAccessList addr))

/-- `AddSlotToAccessList`: lock M, install this view's context, delegate. -/
def TxSpecificStateDB.addSlotToAccessList (txDB : TxSpecificStateDB) (db : StateDB)
    (addr : Address) (slot : Hash) : List MEvent × StateDB :=
  ([.lockAcquire, .setContext txDB.txContext, .delegate (.addSlotToAccessList addr slot), .lockRelease],
   StateDB.serve { db with txStateContext := some txDB.txContext } (.addSlotToAccessList addr slot))

/-- `RevertToSnapshot`: lock M, install this view's context, delegate. -/
def TxSpecificStateDB.revertToSnapshot (txDB : TxSpecificStateDB) (db : StateDB)
    (snapshot : Int) : List MEvent × StateDB :=
  ([.lockAcquire, .setContext txDB.txContext, .delegate (.revertToSnapshot snapshot), .lockRelease],
   StateDB.serve { db with txStateContext := some txDB.txContext } (.revertToSnapshot snapshot))

/-- `Snapshot`: lock M, install this view's context, delegate. -/
def TxSpecificStateDB.snapshot (txDB : TxSpecificStateDB) (db : StateDB) :
    List MEvent × StateDB :=
  ([.lockAcquire, .setContext txDB.txContext, .delegate .snapshot, .lockRelease],
   StateDB.serve { db with txStateContext := some txDB.txContext } .snapshot)

/-- `AddLog`: lock M, install this view's context, delegate. -/
def TxSpecificStateDB.addLog (txDB : TxSpecificStateDB) (db : StateDB)
    (entry : Nat) : List MEvent × StateDB :=
  ([.lockAcquire, .setContext txDB.txContext, .delegate (.addLog entry), .lockRelease],
   StateDB.serve { db with txStateContext := some txDB.txContext } (.addLog entry))

/-- `AddPreimage`: lock M, install this view's context, delegate. -/
def TxSpecificStateDB.addPreimage (txDB : TxSpecificStateDB) (db : StateDB)
    (hash : Hash) (preimage : List Nat) : List MEvent × StateDB :=
  ([.lockAcquire, .setContext txDB.txContext, .delegate (.addPreimage hash preimage), .lockRelease],
   StateDB.serve { db with txStateContext := some txDB.txContext } (.addPreimage hash preimage))

/-- `ForEachStorage`: lock M, install this view's context, delegate. -/
def TxSpecificStateDB.forEachStorage (txDB : TxSpecificStateDB) (db : StateDB)
    (addr : Address) (f : Hash → Hash → Bool) : List MEvent × StateDB :=
  ([.lockAcquire, .setContext txDB.txContext, .delegate (.forEachStorage addr f), .lockRelease],
   StateDB.serve { db with txStateContext := some txDB.txContext } (.forEachStorage addr f))

/-- Dispatch a view call to the transcription of the Go method of the
same name. -/
def TxSpecificStateDB.run (txDB : TxSpecificStateDB) (db : StateDB) :
    SOp → List MEvent × StateDB
  | .createAccount addr => txDB.createAccount db addr
  | .subBalance addr amount => txDB.subBalance db addr amount
  | .addBalance addr amount => txDB.addBalance db addr amount
  | .getBalance addr => txDB.getBalance db addr
  | .getNonce addr => txDB.getNonce db addr
  | .setNonce addr nonce => txDB.setNonce db addr nonce
  | .getCodeHash addr => txDB.getCodeHash db addr
  | .getCode addr => txDB.getCode db addr
  | .setCode addr code => txDB.setCode db addr code
  | .getCodeSize addr => txDB.getCodeSize db addr
  | .addRefund amount => txDB.addRefund db amount
  | .subRefund amount => txDB.subRefund db amount
  | .getRefund => txDB.getRefund db
  | .getCommittedState addr key => txDB.getCommittedState db addr key
  | .getState addr key => txDB.getState db addr key
  | .setState addr key value => txDB.setState db addr key value
  | .suicide addr => txDB.suicide db addr
  | .hasSuicided addr => txDB.hasSuicided db addr
  | .exist addr => txDB.exist db addr
  | .empty addr => txDB.empty db addr
  | .prepareAccessList sender dest pre acc => txDB.prepareAccessList db sender dest pre acc
  | .addressInAccessList addr => txDB.addressInAccessList db addr
  | .slotInAccessList addr slot => txDB.slotInAccessList db addr slot
  | .addAddressToAccessList addr => txDB.addAddressToAccessList db addr
  | .addSlotToAccessList addr slot => txDB.addSlotToAccessList db addr slot
  | .revertToSnapshot snapshot => txDB.revertToSnapshot db snapshot
  | .snapshot => txDB.snapshot db
  | .addLog entry => txDB.addLog db entry
  | .addPreimage hash preimage => txDB.addPreimage db hash preimage
  | .forEachStorage addr f => txDB.forEachStorage db addr f

/-- C7: every covered view operation holds the shared mutex for the full
call (the event trace is bracketed by the acquisition and the release),
installs this view's transaction context into the shared store's
active-context slot before delegating, and delegates to the store
operation of the same intent — which therefore observes this view's
context. -/
theorem txSpecificStateDB_contract (txDB : TxSpecificStateDB) (db : StateDB)
    (op : SOp) :
    txDB.run db op =
      ([.lockAcquire, .setContext txDB.txContext, .delegate op, .lockRelease],
       { txStateContext := some txDB.txContext,
         callLog := db.callLog ++ [(some txDB.txContext, op)] }) := by
  cases op <;> rfl

/-! ## Transactions, receipts, and `applyTransaction`
(`part_001`, the state processor file) -/

/-- One entry of a transaction's access list (`types.AccessTuple`); the
locking layer uses only the address. -/
structure AccessTuple where
  address : Address
  storageKeys : List Hash
deriving DecidableEq, Repr

/-- The slice of `types.Transaction` this development needs. -/
structure Transaction where
  hash : Hash
  nonce : Nat
  txType : Nat
  accessList : List AccessTuple
deriving DecidableEq, Repr

/-- The slice of `types.Message` that `applyTransaction` reads: the
origin (`From`, which `NewEVMTxContext` copies into the EVM tx context)
and the destination (`To`, `nil` for contract creation). -/
structure Message where
  fromAddr : Address
  toAddr : Option Address
deriving DecidableEq, Repr

/-- The slice of the VM `ExecutionResult`: gas consumed and whether
execution reported failure. -/
structure ExecutionResult where
  usedGas : Nat
  failed : Bool
deriving DecidableEq, Repr

/-- `types.ReceiptStatusFailed`. -/
def receiptStatusFailed : Nat := 0

/-- `types.ReceiptStatusSuccessful`. -/
def receiptStatusSuccessful : Nat := 1

/-- `types.Receipt`, with logs and blooms abstracted to `Nat` data. -/
structure Receipt where
  txType : Nat
  status : Nat
  cumulativeGasUsed : Nat
  txHash : Hash
  gasUsed : Nat
  contractAddress : Address
  logs : List Nat
  bloom : Nat
  blockHash : Hash
  blockNumber : Int
  transactionIndex : Nat
deriving DecidableEq, Repr

/-- The slice of `state.StateDBInterface` that receipt assembly reads:
`GetLogs` and `TxIndex`. -/
structure StateDBInterface where
  getLogs : Hash → Hash → List Nat
  txIndex : Nat

/-- `applyTransaction` (the unexported helper): the external
`ApplyMessage` outcome is passed in as `applyMessageResult`, and the
external collaborators `crypto.CreateAddress` and `types.CreateBloom`
as function arguments.  On a VM error the error is returned; otherwise
the used gas is accumulated (atomically in Go, with `uint64` wrap) and
the receipt is assembled field by field as in the source.  The
`Finalise`/`IntermediateRoot` calls touch only the external store and
produce no data used here. -/
def applyTransaction {E : Type} (msg : Message)
    (createAddress : Address → Nat → Address) (createBloom : List Nat → Nat)
    (applyMessageResult : Except E ExecutionResult)
    (statedb : StateDBInterface) (blockNumber : Int) (blockHash : Hash)
    (tx : Transaction) (usedGas : Nat) : Except E (Receipt × Nat) :=
  match applyMessageResult with
  | .error e => .error e
  | .ok result =>
    let usedGas2 := (usedGas + result.usedGas) % uint64Mod
    let logs := statedb.getLogs tx.hash blockHash
    .ok
      ({ txType := tx.txType
         status := if result.failed then receiptStatusFailed else receiptStatusSuccessful
         cumulativeGasUsed := usedGas2
         txHash := tx.hash
         gasUsed := result.usedGas
         contractAddress :=
           if msg.toAddr = none then createAddress msg.fromAddr tx.nonce else 0
         logs := logs
         bloom := createBloom logs
         blockHash := blockHash
         blockNumber := blockNumber
         transactionIndex := statedb.txIndex }, usedGas2)

/-! ## Post-join pass of `processParallel` -/

/-- The post-join loop of `processParallel`: walk the receipts in block
order accumulating `cumulativeGasUsed` (Go `uint64` addition) into each
receipt; returns the rewritten receipts and the final accumulator. -/
def updateCumulativeGas (cum : Nat) : List Receipt → List Receipt × Nat
  | [] => ([], cum)
  | r :: rs =>
    let cum2 := (cum + r.gasUsed) % uint64Mod
    let rest := updateCumulativeGas cum2 rs
    ({ r with cumulativeGasUsed := cum2 } :: rest.1, rest.2)

/-- Total declared gas of a receipt list, as an unbounded sum. -/
def totalGasUsed (rs : List Receipt) : Nat :=
  (rs.map (fun r => r.gasUsed)).sum

/-- The block-level error of the post-join check, carrying the gas limit
and the computed cumulative total it reports. -/
inductive BlockGasError where
  | blockExceededGasLimit (gasLimit : Nat) (cumulativeGasUsed : Nat)
deriving DecidableEq, Repr

/-- The tail of `processParallel` after `eg.Wait()` succeeds: coalesce
the per-transaction logs, rewrite cumulative gas in block order, and
reject the block when the total exceeds the header gas limit (returning
nil receipts, nil logs and zero gas with the error). -/
def processParallelPostJoin (receipts : List Receipt) (txLogs : List (List Nat))
    (gasLimit : Nat) (usedGas : Nat) :
    Option (List Receipt) × Option (List Nat) × Nat × Option BlockGasError :=
  let allLogs := txLogs.flatten
  let res := updateCumulativeGas 0 receipts
  if gasLimit < res.2 then
    (none, none, 0, some (.blockExceededGasLimit gasLimit res.2))
  else
    (some res.1, some allLogs, usedGas, none)

theorem updateCumulativeGas_length (rs : List Receipt) (cum : Nat) :
    (updateCumulativeGas cum rs).1.length = rs.length := by
  induction rs generalizing cum with
  | nil => rfl
  | cons r rs ih => simp [updateCumulativeGas, ih]

theorem updateCumulativeGas_final (rs : List Receipt) (cum : Nat)
    (hc : cum < uint64Mod) :
    (updateCumulativeGas cum rs).2 = (cum + totalGasUsed rs) % uint64Mod := by
  induction rs generalizing cum with
  | nil =>
    show cum = (cum + 0) % uint64Mod
    rw [Nat.add_zero, Nat.mod_eq_of_lt hc]
  | cons r rs ih =>
    show (updateCumulativeGas ((cum + r.gasUsed) % uint64Mod) rs).2 = _
    rw [ih _ (Nat.mod_lt _ (by decide))]
    rw [Nat.mod_add_mod]
    show _ = (cum + ((r.gasUsed :: rs.map (fun r => r.gasUsed)).sum)) % uint64Mod
    rw [List.sum_cons, Nat.add_assoc]
    rfl

theorem updateCumulativeGas_get (rs : List Receipt) (cum k : Nat)
    (hk : k < (updateCumulativeGas cum rs).1.length) :
    ((updateCumulativeGas cum rs).1.get ⟨k, hk⟩).cumulativeGasUsed
      = (cum + ((rs.take (k + 1)).map (fun r => r.gasUsed)).sum) % uint64Mod := by
  induction rs generalizing cum k with
  | nil => exact absurd hk (by simp [updateCumulativeGas])
  | cons r rs ih =>
    cases k with
    | zero => simp [updateCumulativeGas]
    | succ k =>
      have hk2 : k < (updateCumulativeGas ((cum + r.gasUsed) % uint64Mod) rs).1.length := by
        have := hk
        simpa [updateCumulativeGas] using this
      have step := ih ((cum + r.gasUsed) % uint64Mod) k hk2
      have hget : ((updateCumulativeGas cum (r :: rs)).1.get ⟨k + 1, hk⟩)
          = ((updateCumulativeGas ((cum + r.gasUsed) % uint64Mod) rs).1.get ⟨k, hk2⟩) := by
        simp [updateCumulativeGas]
      rw [hget, step, Nat.mod_add_mod]
      simp [Nat.add_assoc]

theorem sum_take_le (l : List Nat) (n : Nat) : (l.take n).sum ≤ l.sum := by
  induction l generalizing n with
  | nil => simp
  | cons a l ih =>
    cases n with
    | zero => simp
    | succ n =>
      rw [List.take_succ_cons, List.sum_cons, List.sum_cons]
      exact Nat.add_le_add_left (ih n) a

/-- C2: with the block's total gas (as an unbounded sum) below 2^64, the
post-join pass gives every receipt `k` a `cumulativeGasUsed` equal to
the sum of `gasUsed` over indices `j ≤ k`; when the total stays within
the header gas limit the rewritten receipts, the flattened logs and the
used gas are returned with no error, and when it exceeds the limit the
processor returns nil receipts, nil logs, zero gas and an error carrying
both the gas limit and the computed total. -/
theorem processParallel_cumulative_gas (receipts : List Receipt)
    (txLogs : List (List Nat)) (gasLimit usedGas : Nat)
    (hsum : totalGasUsed receipts < uint64Mod) :
    (∀ (k : Nat) (hk : k < (updateCumulativeGas 0 receipts).1.length),
      ((updateCumulativeGas 0 receipts).1.get ⟨k, hk⟩).cumulativeGasUsed
        = ((receipts.take (k + 1)).map (fun r => r.gasUsed)).sum) ∧
    (totalGasUsed receipts ≤ gasLimit →
      processParallelPostJoin receipts txLogs gasLimit usedGas =
        (some (updateCumulativeGas 0 receipts).1, some txLogs.flatten, usedGas, none)) ∧
    (gasLimit < totalGasUsed receipts →
      processParallelPostJoin receipts txLogs gasLimit usedGas =
        (none, none, 0,
         some (.blockExceededGasLimit gasLimit (totalGasUsed receipts)))) := by
  have hfinal : (updateCumulativeGas 0 receipts).2 = totalGasUsed receipts := by
    rw [updateCumulativeGas_final receipts 0 (by decide), Nat.zero_add,
      Nat.mod_eq_of_lt hsum]
  refine ⟨?_, ?_, ?_⟩
  · intro k hk
    rw [updateCumulativeGas_get receipts 0 k hk, Nat.zero_add]
    apply Nat.mod_eq_of_lt
    calc ((receipts.take (k + 1)).map (fun r => r.gasUsed)).sum
        = ((receipts.map (fun r => r.gasUsed)).take (k + 1)).sum := by
          rw [List.map_take]
      _ ≤ (receipts.map (fun r => r.gasUsed)).sum := sum_take_le _ _
      _ < uint64Mod := hsum
  · intro hle
    simp only [processParallelPostJoin]
    rw [hfinal, if_neg (Nat.not_lt.mpr hle)]
  · intro hgt
    simp only [processParallelPostJoin]
    rw [hfinal, if_pos hgt]

/-- Receipts used in the witness for C2. -/
def receiptOfGas (g : Nat) : Receipt :=
  { txType := 0, status := 1, cumulativeGasUsed := 0, txHash := 0, gasUsed := g,
    contractAddress := 0, logs := [], bloom := 0, blockHash := 0,
    blockNumber := 0, transactionIndex := 0 }

/-- Witness for C2: two receipts of gas 3 and 5 against gas limit 7 hit
the overflow branch with the error naming limit 7 and total 8; the k = 1
prefix sum is 8. -/
theorem processParallel_cumulative_gas_witness :
    (processParallelPostJoin [receiptOfGas 3, receiptOfGas 5] [[1], [2]] 7 0 =
      (none, none, 0,
       some (.blockExceededGasLimit 7 (totalGasUsed [receiptOfGas 3, receiptOfGas 5])))) ∧
    ((updateCumulativeGas 0 [receiptOfGas 3, receiptOfGas 5]).1.get
        ⟨1, by decide⟩).cumulativeGasUsed
      = (([receiptOfGas 3, receiptOfGas 5].take 2).map (fun r => r.gasUsed)).sum := by
  have h := processParallel_cumulative_gas [receiptOfGas 3, receiptOfGas 5]
    [[1], [2]] 7 0 (by decide)
  exact ⟨h.2.2 (by decide), h.1 1 (by decide)⟩

/-- C8: when `ApplyMessage` succeeds with `result`, `applyTransaction`
builds a receipt whose status is the failed status exactly when the
result reports failure (successful otherwise), whose transaction hash,
gas used, logs (taken from the state view for the transaction hash),
bloom (computed over those logs), block hash, block number and
transaction index (the view's) are as claimed, and whose contract
address is `CreateAddress(origin, tx.nonce)` when the message has no
destination and the zero address otherwise. -/
theorem applyTransaction_receipt_fields {E : Type} (msg : Message)
    (createAddress : Address → Nat → Address) (createBloom : List Nat → Nat)
    (result : ExecutionResult) (statedb : StateDBInterface)
    (blockNumber : Int) (blockHash : Hash) (tx : Transaction) (usedGas : Nat) :
    ∃ (receipt : Receipt) (used2 : Nat),
      applyTransaction msg createAddress createBloom
          (Except.ok result : Except E ExecutionResult)
          statedb blockNumber blockHash tx usedGas = .ok (receipt, used2) ∧
      (receipt.status = receiptStatusFailed ↔ result.failed = true) ∧
      (result.failed = false → receipt.status = receiptStatusSuccessful) ∧
      receipt.txHash = tx.hash ∧
      receipt.gasUsed = result.usedGas ∧
      (msg.toAddr = none →
        receipt.contractAddress = createAddress msg.fromAddr tx.nonce) ∧
      (∀ a, msg.toAddr = some a → receipt.contractAddress = 0) ∧
      receipt.logs = statedb.getLogs tx.hash blockHash ∧
      receipt.bloom = createBloom (statedb.getLogs tx.hash blockHash) ∧
      receipt.blockHash = blockHash ∧
      receipt.blockNumber = blockNumber ∧
      receipt.transactionIndex = statedb.txIndex := by
  refine ⟨_, _, rfl, ?_, ?_, rfl, rfl, ?_, ?_, rfl, rfl, rfl, rfl, rfl⟩
  · cases hf : result.failed <;>
      simp [hf, receiptStatusFailed, receiptStatusSuccessful]
  · intro hf
    simp [hf]
  · intro hto
    simp [hto]
  · intro a hto
    simp [hto]

/-- Witness for C8: a successful creation transaction (no destination)
with concrete collaborators; the receipt reports success, the created
contract address and the view's logs and index. -/
theorem applyTransaction_receipt_fields_witness :
    ∃ (receipt : Receipt) (used2 : Nat),
      applyTransaction { fromAddr := 7, toAddr := none }
          (fun a n => 1000 * a + n) (fun l => l.sum)
          (Except.ok { usedGas := 21000, failed := false } : Except Nat ExecutionResult)
          { getLogs := fun h b => [h, b], txIndex := 4 } 9 77
          { hash := 55, nonce := 2, txType := 1, accessList := [] } 0 =
        .ok (receipt, used2) ∧
      receipt.status = receiptStatusSuccessful ∧
      receipt.contractAddress = 7002 ∧
      receipt.logs = [55, 77] ∧
      receipt.transactionIndex = 4 := by
  obtain ⟨r, u, heq, _h1, h2, _h3, _h4, h5, _h6, h7, _h8, _h9, _h10, h11⟩ :=
    @applyTransaction_receipt_fields Nat { fromAddr := 7, toAddr := none }
      (fun a n => 1000 * a + n) (fun l => l.sum)
      { usedGas := 21000, failed := false }
      { getLogs := fun h b => [h, b], txIndex := 4 } 9 77
      { hash := 55, nonce := 2, txType := 1, accessList := [] } 0
  exact ⟨r, u, heq, h2 rfl, h5 rfl, h7, h11⟩

/-! ## Access-list lock set (`core/parallel/address_locker_set.go`)

`AccessListLocker.addressLocks` is the map `address → FIFOLocker`,
embedded as a function into `Option FIFOLocker`.  The construction is
the nested loop of `NewAccessListLocker`: one pass over the block's
transactions in index order, and per transaction one pass over its
access tuples — reserve on an existing lock, create otherwise.  The
`FIFOLocker` operations are those of the variant with the guarded
`Reserve` (`FifoA`). -/

abbrev LockMap := Address → Option FIFOLocker

/-- Map assignment `addressLocks[a] = l`. -/
def setLock (m : LockMap) (a : Address) (l : FIFOLocker) : LockMap :=
  fun a2 => if a2 = a then some l else m a2

/-- Inner loop of `NewAccessListLocker` over one transaction's access
tuples: reserve `txHash` on an existing lock for the tuple's address
(propagating the reserve panic), or create a fresh lock headed by
`txHash`. -/
def reserveOrCreate (m : LockMap) (txHash : Hash) : List AccessTuple → Option LockMap
  | [] => some m
  | t :: ts =>
    match m t.address with
    | some lock =>
      match FifoA.reserve lock txHash with
      | none => none
      | some lock2 => reserveOrCreate (setLock m t.address lock2) txHash ts
    | none => reserveOrCreate (setLock m t.address (NewFIFOLocker txHash)) txHash ts

/-- Outer loop of `NewAccessListLocker` over the transactions in block
order. -/
def newAccessListLockerAux (m : LockMap) : List Transaction → Option LockMap
  | [] => some m
  | tx :: txs =>
    match reserveOrCreate m tx.hash tx.accessList with
    | none => none
    | some m2 => newAccessListLockerAux m2 txs

/-- `NewAccessListLocker(txs)`, starting from the empty map. -/
def NewAccessListLocker (txs : List Transaction) : Option LockMap :=
  newAccessListLockerAux (fun _ => none) txs

/-- One construction step for a single `(hash, address)` pair. -/
def accessListLockerStep (m : LockMap) (p : Hash × Address) : Option LockMap :=
  match m p.2 with
  | some lock =>
    match FifoA.reserve lock p.1 with
    | none => none
    | some lock2 => some (setLock m p.2 lock2)
  | none => some (setLock m p.2 (NewFIFOLocker p.1))

/-- The construction, flattened to one pass over `(hash, address)`
pairs. -/
def buildFlat (m : LockMap) : List (Hash × Address) → Option LockMap
  | [] => some m
  | p :: ps =>
    match accessListLockerStep m p with
    | none => none
    | some m2 => buildFlat m2 ps

/-- The `(hash, address)` pairs the construction visits, in order. -/
def txPairs (txs : List Transaction) : List (Hash × Address) :=
  txs.flatMap (fun tx => tx.accessList.map (fun t => (tx.hash, t.address)))

/-- The gate table holding one closed gate per listed hash, installed in
order. -/
def gatesFor (hs : List Hash) : Hash → Option Bool :=
  hs.foldl (fun g h => setGate g h false) (fun _ => none)

/-- The lock a hash sequence denotes: the first hash is the head, the
rest are queued with closed gates; no lock for the empty sequence. -/
def lockForHashes : List Hash → Option FIFOLocker
  | [] => none
  | h :: t => some { headTx := h, txQueue := t, txLocks := gatesFor t }

/-- The hashes declared for address `a` among the visited pairs, in
order. -/
def hashesFor (a : Address) (ps : List (Hash × Address)) : List Hash :=
  (ps.filter (fun p => decide (p.2 = a))).map (fun p => p.1)

/-- Whether a transaction's access list declares address `a`. -/
def Transaction.declares (tx : Transaction) (a : Address) : Bool :=
  tx.accessList.any (fun t => t.address == a)

theorem hashesFor_append (a : Address) (ps qs : List (Hash × Address)) :
    hashesFor a (ps ++ qs) = hashesFor a ps ++ hashesFor a qs := by
  simp [hashesFor]

theorem buildFlat_append (m : LockMap) (qs ps : List (Hash × Address)) :
    buildFlat m (qs ++ ps) =
      match buildFlat m qs with
      | none => none
      | some m2 => buildFlat m2 ps := by
  induction qs generalizing m with
  | nil => rfl
  | cons q qs ih =>
    cases h : accessListLockerStep m q with
    | none => simp [buildFlat, h]
    | some m2 => simp [buildFlat, h, ih m2]

theorem reserveOrCreate_eq_flat (m : LockMap) (txHash : Hash) (ts : List AccessTuple) :
    reserveOrCreate m txHash ts = buildFlat m (ts.map (fun t => (txHash, t.address))) := by
  induction ts generalizing m with
  | nil => rfl
  | cons t ts ih =>
    cases h : m t.address with
    | none =>
      simp [reserveOrCreate, buildFlat, accessListLockerStep, h, ih]
    | some lock =>
      cases h2 : FifoA.reserve lock txHash with
      | none => simp [reserveOrCreate, buildFlat, accessListLockerStep, h, h2]
      | some lock2 =>
        simp [reserveOrCreate, buildFlat, accessListLockerStep, h, h2, ih]

theorem newAccessListLocker_eq_flat (txs : List Transaction) (m : LockMap) :
    newAccessListLockerAux m txs = buildFlat m (txPairs txs) := by
  induction txs generalizing m with
  | nil => rfl
  | cons tx txs ih =>
    have hp : txPairs (tx :: txs) =
        tx.accessList.map (fun t => (tx.hash, t.address)) ++ txPairs txs := by
      simp [txPairs]
    rw [hp, buildFlat_append]
    show (match reserveOrCreate m tx.hash tx.accessList with
          | none => none
          | some m2 => newAccessListLockerAux m2 txs) = _
    rw [reserveOrCreate_eq_flat]
    cases buildFlat m (tx.accessList.map (fun t => (tx.hash, t.address))) with
    | none => rfl
    | some m2 => exact ih m2

theorem gatesFor_append_singleton (hs : List Hash) (h : Hash) :
    gatesFor (hs ++ [h]) = setGate (gatesFor hs) h false := by
  unfold gatesFor
  rw [List.foldl_append]
  rfl

theorem hashesFor_single (a : Address) (p : Hash × Address) :
    hashesFor a [p] = if p.2 = a then [p.1] else [] := by
  by_cases h : p.2 = a <;> simp [hashesFor, h]

theorem buildFlat_spec (ps : List (Hash × Address)) :
    (∀ a, (hashesFor a ps).Nodup) →
    ∃ m, buildFlat (fun _ => none) ps = some m ∧
      ∀ a, m a = lockForHashes (hashesFor a ps) := by
  induction ps using List.reverseRecOn with
  | nil =>
    intro _
    exact ⟨fun _ => none, rfl, fun a => rfl⟩
  | append_singleton qs p ih =>
    intro hnodup
    have hq : ∀ a, (hashesFor a qs).Nodup := by
      intro a
      have h := hnodup a
      rw [hashesFor_append] at h
      exact h.of_append_left
    obtain ⟨m, hm, hinv⟩ := ih hq
    rw [buildFlat_append, hm]
    cases hma : m p.2 with
    | none =>
      have hqnil : hashesFor p.2 qs = [] := by
        have h := hinv p.2
        rw [hma] at h
        cases hl : hashesFor p.2 qs with
        | nil => rfl
        | cons h0 rest =>
          rw [hl] at h
          exact absurd h (by simp [lockForHashes])
      refine ⟨setLock m p.2 (NewFIFOLocker p.1), ?_, ?_⟩
      · simp [buildFlat, accessListLockerStep, hma]
      · intro a
        rw [hashesFor_append, hashesFor_single]
        by_cases hap : p.2 = a
        · subst hap
          rw [hqnil]
          simp [setLock, lockForHashes, NewFIFOLocker, gatesFor]
        · rw [if_neg hap, List.append_nil]
          simp only [setLock]
          rw [if_neg (fun h2 => hap h2.symm)]
          exact hinv a
    | some lock =>
      obtain ⟨h0, rest, hl⟩ : ∃ h0 rest, hashesFor p.2 qs = h0 :: rest := by
        cases hl : hashesFor p.2 qs with
        | nil =>
          have h := hinv p.2
          rw [hma, hl] at h
          exact absurd h (by simp [lockForHashes])
        | cons h0 rest => exact ⟨h0, rest, rfl⟩
      have hlock : lock = { headTx := h0, txQueue := rest, txLocks := gatesFor rest } := by
        have h := hinv p.2
        rw [hma, hl] at h
        simp only [lockForHashes, Option.some.injEq] at h
        exact h
      have hnd := hnodup p.2
      rw [hashesFor_append, hl, hashesFor_single, if_pos rfl] at hnd
      have hne : p.1 ≠ h0 := by
        rw [List.cons_append] at hnd
        have h0nin := (List.nodup_cons.mp hnd).1
        intro he
        exact h0nin (List.mem_append_right _ (by rw [← he]; exact List.mem_singleton_self _))
      have hres : FifoA.reserve lock p.1 =
          some { headTx := h0, txQueue := rest ++ [p.1],
                 txLocks := setGate (gatesFor rest) p.1 false } := by
        rw [hlock]
        unfold FifoA.reserve
        rw [if_neg hne]
      refine ⟨setLock m p.2
        { headTx := h0, txQueue := rest ++ [p.1],
          txLocks := setGate (gatesFor rest) p.1 false }, ?_, ?_⟩
      · simp [buildFlat, accessListLockerStep, hma, hres]
      · intro a
        rw [hashesFor_append, hashesFor_single]
        by_cases hap : p.2 = a
        · subst hap
          rw [hl, if_pos rfl, List.cons_append]
          simp [setLock, lockForHashes, gatesFor_append_singleton]
        · rw [if_neg hap, List.append_nil]
          simp only [setLock]
          rw [if_neg (fun h2 => hap h2.symm)]
          exact hinv a

theorem hashesFor_mapped (h : Hash) (ts : List AccessTuple) (a : Address)
    (hnd : (ts.map (fun t => t.address)).Nodup) :
    hashesFor a (ts.map (fun t => (h, t.address)))
      = if ts.any (fun t => t.address == a) then [h] else [] := by
  induction ts with
  | nil => simp [hashesFor]
  | cons t ts ih =>
    have hnd2 : (ts.map (fun t => t.address)).Nodup := (List.nodup_cons.mp hnd).2
    have hstep : hashesFor a ((h, t.address) :: ts.map (fun t => (h, t.address)))
        = (if t.address = a then [h] else []) ++ hashesFor a (ts.map (fun t => (h, t.address))) := by
      rw [show ((h, t.address) :: ts.map (fun t => (h, t.address)))
          = [(h, t.address)] ++ ts.map (fun t => (h, t.address)) from rfl]
      rw [hashesFor_append, hashesFor_single]
    rw [List.map_cons, hstep, ih hnd2]
    by_cases hta : t.address = a
    · have hnin : a ∉ ts.map (fun t => t.address) := by
        rw [← hta]
        exact (List.nodup_cons.mp hnd).1
      have hany : ts.any (fun t => t.address == a) = false := by
        rw [List.any_eq_false]
        intro t2 ht2
        simp only [beq_iff_eq]
        intro he
        exact hnin (he ▸ List.mem_map_of_mem (fun t => t.address) ht2)
      simp [hta, hany]
    · simp [hta, fun h2 : t.address == a => hta (by simpa using h2)]

theorem hashesFor_txPairs (txs : List Transaction) (a : Address)
    (h2 : ∀ tx ∈ txs, (tx.accessList.map (fun t => t.address)).Nodup) :
    hashesFor a (txPairs txs)
      = (txs.filter (fun tx => tx.declares a)).map (fun tx => tx.hash) := by
  induction txs with
  | nil => simp [txPairs, hashesFor]
  | cons tx txs ih =>
    have hp : txPairs (tx :: txs) =
        tx.accessList.map (fun t => (tx.hash, t.address)) ++ txPairs txs := by
      simp [txPairs]
    rw [hp, hashesFor_append,
      hashesFor_mapped tx.hash tx.accessList a (h2 tx (List.mem_cons_self tx txs)),
      ih (fun tx2 ht2 => h2 tx2 (List.mem_cons_of_mem tx ht2))]
    by_cases hd : tx.declares a
    · have hf : List.filter (fun tx => tx.declares a) (tx :: txs)
          = tx :: List.filter (fun tx => tx.declares a) txs := by
        simp [List.filter_cons, hd]
      rw [hf, List.map_cons]
      simp only [Transaction.declares] at hd
      simp [Transaction.declares, hd]
    · have hf : List.filter (fun tx => tx.declares a) (tx :: txs)
          = List.filter (fun tx => tx.declares a) txs := by
        simp [List.filter_cons, hd]
      rw [hf]
      simp only [Transaction.declares] at hd
      simp [hd]

/-- C3: constructing the access-list lock set from the block's
transactions in index order (distinct transaction hashes, and no
duplicate address inside one access list) succeeds, and for every
address `a` the resulting map holds exactly the lock whose head is the
hash of the lowest-index transaction declaring `a` and whose queue
holds, in ascending block-index order, the hashes of the remaining
declaring transactions — each inserted via `Reserve`, so each carries a
closed gate; addresses declared by no transaction get no lock. -/
theorem accessListLocker_construction (txs : List Transaction)
    (h1 : (txs.map (fun tx => tx.hash)).Nodup)
    (h2 : ∀ tx ∈ txs, (tx.accessList.map (fun t => t.address)).Nodup) :
    ∃ m, NewAccessListLocker txs = some m ∧
      ∀ a : Address,
        m a = lockForHashes
          ((txs.filter (fun tx => tx.declares a)).map (fun tx => tx.hash)) := by
  have hnodup : ∀ a, (hashesFor a (txPairs txs)).Nodup := by
    intro a
    rw [hashesFor_txPairs txs a h2]
    exact List.Nodup.sublist ((List.filter_sublist _).map _) h1
  obtain ⟨m, hm, hinv⟩ := buildFlat_spec (txPairs txs) hnodup
  refine ⟨m, ?_, ?_⟩
  · rw [NewAccessListLocker, newAccessListLocker_eq_flat]
    exact hm
  · intro a
    rw [hinv a, hashesFor_txPairs txs a h2]

/-- Transactions used in the witness for C3. -/
def witnessTxs : List Transaction :=
  [ { hash := 10, nonce := 0, txType := 0,
      accessList := [{ address := 1, storageKeys := [] },
                     { address := 2, storageKeys := [] }] },
    { hash := 11, nonce := 1, txType := 0,
      accessList := [{ address := 1, storageKeys := [] }] },
    { hash := 12, nonce := 2, txType := 0,
      accessList := [{ address := 2, storageKeys := [] },
                     { address := 3, storageKeys := [] }] } ]

/-- Witness for C3: on three concrete transactions, address 1 gets head
10 with queue [11], address 2 head 10 with queue [12], address 3 head 12
with empty queue, and address 4 no lock. -/
theorem accessListLocker_construction_witness :
    ∃ m, NewAccessListLocker witnessTxs = some m ∧
      m 1 = lockForHashes [10, 11] ∧
      m 2 = lockForHashes [10, 12] ∧
      m 3 = lockForHashes [12] ∧
      m 4 = none := by
  obtain ⟨m, hm, hinv⟩ :=
    accessListLocker_construction witnessTxs (by decide) (by decide)
  exact ⟨m, hm, hinv 1, hinv 2, hinv 3, hinv 4⟩

/-! ## The per-transaction task of `processParallel` (`part_001`)

`AccessListLocker.Lock`/`Unlock` walk the transaction's access tuples
calling the per-address `FIFOLocker`; a missing lock is a nil
dereference (`none`).  The task body locks, recovers the message,
applies the transaction, and only on success unlocks and stores the
receipt and logs at the transaction's index. -/

/-- Loop body of `AccessListLocker.Lock(tx)` over the access tuples. -/
def lockAddrs (m : LockMap) (txHash : Hash) : List AccessTuple → Option LockMap
  | [] => some m
  | t :: ts =>
    match m t.address with
    | none => none
    | some lock =>
      match FifoA.lock lock txHash with
      | none => none
      | some lock2 => lockAddrs (setLock m t.address lock2) txHash ts

/-- `AccessListLocker.Lock(tx)`. -/
def AccessListLocker.lockTx (m : LockMap) (tx : Transaction) : Option LockMap :=
  lockAddrs m tx.hash tx.accessList

/-- Loop body of `AccessListLocker.Unlock(tx)` over the access tuples. -/
def unlockAddrs (m : LockMap) (txHash : Hash) : List AccessTuple → Option LockMap
  | [] => some m
  | t :: ts =>
    match m t.address with
    | none => none
    | some lock =>
      match FifoA.unlock lock txHash with
      | none => none
      | some lock2 => unlockAddrs (setLock m t.address lock2) txHash ts

/-- `AccessListLocker.Unlock(tx)`. -/
def AccessListLocker.unlockTx (m : LockMap) (tx : Transaction) : Option LockMap :=
  unlockAddrs m tx.hash tx.accessList

/-- The error a task returns: `could not apply tx %d [%v]: %w`, carrying
the index, the transaction hash and the wrapped inner error. -/
inductive TaskError (E : Type) where
  | couldNotApply (i : Nat) (txHash : Hash) (inner : E)

/-- The task submitted for `(i, tx)` in `processParallel`, sequenced on
the lock map and the result slots.  `msgRes` is the outcome of the
external `tx.AsMessage` and `applyRes` the outcome `applyTransaction`
would produce for the recovered message.  `none` models a panic inside
`Lock`/`Unlock`; otherwise the task yields its error or unit result
together with the lock map and the receipt and log slots. -/
def taskRun {E : Type} (m : LockMap) (receipts : List (Option Receipt))
    (txLogs : List (Option (List Nat))) (i : Nat) (tx : Transaction)
    (msgRes : Except E Message)
    (applyRes : Message → Except E (Receipt × Nat)) :
    Option (Except (TaskError E) Unit × LockMap ×
      List (Option Receipt) × List (Option (List Nat))) :=
  match AccessListLocker.lockTx m tx with
  | none => none
  | some m1 =>
    match msgRes with
    | .error e => some (.error (.couldNotApply i tx.hash e), m1, receipts, txLogs)
    | .ok msg =>
      match applyRes msg with
      | .error e => some (.error (.couldNotApply i tx.hash e), m1, receipts, txLogs)
      | .ok (receipt, _) =>
        match AccessListLocker.unlockTx m1 tx with
        | none => none
        | some m2 =>
            some (.ok (), m2, receipts.set i (some receipt),
              txLogs.set i (some receipt.logs))

theorem lockAddrs_preserves (ts : List AccessTuple) (m : LockMap) (txHash : Hash)
    (hhead : ∀ t ∈ ts, ∃ lock, m t.address = some lock ∧ lock.headTx = txHash) :
    ∃ m1, lockAddrs m txHash ts = some m1 ∧ ∀ a, m1 a = m a := by
  induction ts generalizing m with
  | nil => exact ⟨m, rfl, fun a => rfl⟩
  | cons t ts ih =>
    obtain ⟨lock, hml, hhd⟩ := hhead t (List.mem_cons_self t ts)
    have hlk : FifoA.lock lock txHash = some lock := by
      unfold FifoA.lock
      rw [if_pos hhd]
    have hpt : ∀ a, setLock m t.address lock a = m a := by
      intro a
      unfold setLock
      by_cases ha : a = t.address
      · rw [if_pos ha, ha, hml]
      · rw [if_neg ha]
    obtain ⟨m1, hrec, hpre⟩ := ih (setLock m t.address lock) (by
      intro t2 ht2
      obtain ⟨lock2, hml2, hhd2⟩ := hhead t2 (List.mem_cons_of_mem t ht2)
      exact ⟨lock2, (hpt t2.address).trans hml2, hhd2⟩)
    refine ⟨m1, ?_, fun a => (hpre a).trans (hpt a)⟩
    simp only [lockAddrs, hml, hlk]
    exact hrec

/-- C10: if the transaction has acquired its access-list locks (it is
the head of each of them) and either message recovery or
`applyTransaction` fails, the task returns the wrapped error naming the
index and hash, stores nothing at the transaction's receipt and log
slots, never calls `Unlock`, leaves every lock unchanged — and the
transaction remains the head of every lock it had acquired. -/
theorem taskRun_error_path {E : Type} (m : LockMap) (receipts : List (Option Receipt))
    (txLogs : List (Option (List Nat))) (i : Nat) (tx : Transaction) (e : E)
    (msgRes : Except E Message) (applyRes : Message → Except E (Receipt × Nat))
    (hhead : ∀ t ∈ tx.accessList, ∃ lock, m t.address = some lock ∧ lock.headTx = tx.hash)
    (herr : msgRes = .error e ∨ ∃ msg, msgRes = .ok msg ∧ applyRes msg = .error e) :
    ∃ m1, taskRun m receipts txLogs i tx msgRes applyRes =
        some (.error (.couldNotApply i tx.hash e), m1, receipts, txLogs) ∧
      (∀ a, m1 a = m a) ∧
      (∀ t ∈ tx.accessList, ∃ lock, m1 t.address = some lock ∧ lock.headTx = tx.hash) := by
  obtain ⟨m1, hl, hpre⟩ := lockAddrs_preserves tx.accessList m tx.hash hhead
  refine ⟨m1, ?_, hpre, ?_⟩
  · rcases herr with he | ⟨msg, hok, happ⟩
    · simp only [taskRun, AccessListLocker.lockTx, hl, he]
    · simp only [taskRun, AccessListLocker.lockTx, hl, hok, happ]
  · intro t ht
    obtain ⟨lock, hml, hhd⟩ := hhead t ht
    exact ⟨lock, (hpre t.address).trans hml, hhd⟩

/-- Witness for C10: one transaction holding the single lock of address
1 (head 50), whose message recovery fails with error 99: the task
returns the wrapped error, slots stay `[none]`, and the lock still has
head 50. -/
theorem taskRun_error_path_witness :
    ∃ m1, taskRun (setLock (fun _ => none) 1 (NewFIFOLocker 50)) [none] [none] 0
        { hash := 50, nonce := 0, txType := 0,
          accessList := [{ address := 1, storageKeys := [] }] }
        (Except.error 99 : Except Nat Message)
        (fun _ => Except.error 99) =
      some (.error (.couldNotApply 0 50 99), m1, [none], [none]) ∧
      m1 1 = some (NewFIFOLocker 50) := by
  obtain ⟨m1, heq, hpre, _⟩ :=
    taskRun_error_path (setLock (fun _ => none) 1 (NewFIFOLocker 50)) [none] [none] 0
      { hash := 50, nonce := 0, txType := 0,
        accessList := [{ address := 1, storageKeys := [] }] }
      99 (Except.error 99 : Except Nat Message) (fun _ => Except.error 99)
      (by
        intro t ht
        rw [List.mem_singleton] at ht
        subst ht
        exact ⟨NewFIFOLocker 50, rfl, rfl⟩)
      (Or.inl rfl)
  exact ⟨m1, heq, (hpre 1).trans rfl⟩
